import Mathlib

/-!
Shallow embedding of the scheduling core of the DentalSystem Flask
application (`src/app.py`, `src/models.py`).

Modelling conventions:
* Timestamps (`datetime` values) are minutes on an `Int` axis; a calendar
  day `d : Int` covers the half-open range `[d*1440, (d+1)*1440)`, so
  `db.func.date(t)` is `t.ediv 1440` and `datetime.combine(d, time(h, m))`
  is `d*1440 + (h*60 + m)`.  Weekdays follow Python's `date.weekday()`
  (0 = Monday ... 6 = Sunday); the epoch is chosen so that day index 0 is
  a Monday, hence `weekday d = d.emod 7`.
* Database rows become Lean structures; the SQLAlchemy queries of the
  routes become `List.find?` / `List.filter` / `List.any` over the stored
  lists.  Row ids that Postgres would draw from a sequence are passed in
  explicitly (`novoId`).
* Statuses are the literal strings of the source
  (`"pendente"`, `"confirmado"`, `"cancelado"`, `"concluido"`).
* Unbounded `while` loops are embedded with explicit fuel
  (`loopAux`): the loop diverges exactly when no amount of fuel yields
  `some` result.  `genShift` is the same loop bounded by
  `(stop - cur).toNat` iterations, which is always enough fuel when the
  step is positive (`loopAux_eq_genShift`).
* Form decoding, flash messages, template rendering and authentication
  wrappers are presentation plumbing and are not modelled; each embedded
  operation starts where the route's validated inputs exist and returns a
  result tag naming the route's outcome (the flash category it emits)
  together with the updated store.
-/

namespace DentalSystem

/-- `models.py`, class `Servico`: id, duration in minutes, active flag
(fields without scheduling logic — name, description, price, timestamps —
are omitted). -/
structure Servico where
  id : Nat
  duracaoMinutos : Int
  ativo : Bool
deriving DecidableEq, Repr

/-- `models.py`, class `Agendamento`: the appointment row (the
presentation-only `created_at`/`updated_at` timestamps are omitted,
`observacoes` is kept as plain text). -/
structure Agendamento where
  id : Nat
  pacienteId : Nat
  dentistaId : Nat
  servicoId : Nat
  dataHoraInicio : Int
  dataHoraFim : Int
  observacoes : String
  status : String
deriving DecidableEq, Repr

/-- `models.py`, class `Configuracao`: the singleton clinic configuration.
The nullable string/int columns are `Option`s so that Python's falsy-`or`
defaulting (`config.hora_inicio_manha or '08:00'`,
`config.intervalo_consultas or 30`) can be modelled faithfully. -/
structure Configuracao where
  horaInicioManha : Option String
  horaFimManha : Option String
  horaInicioTarde : Option String
  horaFimTarde : Option String
  intervaloConsultas : Option Int
  segunda : Bool
  terca : Bool
  quarta : Bool
  quinta : Bool
  sexta : Bool
  sabado : Bool
  domingo : Bool
deriving DecidableEq, Repr

/-- The persistent store the scheduling routes read and write: the
`agendamentos` table and the `servicos` table.  (`Dentista` rows are
fetched by the routes only to render form choices; the booking logic never
looks a dentist up, so they do not appear in the state.) -/
structure Estado where
  agendamentos : List Agendamento
  servicos : List Servico
deriving DecidableEq, Repr

/-- Python's `x or d` for a nullable string column: `None` and the empty
string are falsy and fall back to the default. -/
def orStr (x : Option String) (d : String) : String :=
  match x with
  | none => d
  | some s => if s = "" then d else s

/-- Python's `x or d` for a nullable integer column: `None` and `0` are
falsy and fall back to the default; every other integer (negative ones
included) is kept. -/
def orInt (x : Option Int) (d : Int) : Int :=
  match x with
  | none => d
  | some v => if v = 0 then d else v

/-- Python's `str.split(':')` on the character list: the groups between
the `':'` separators, in order (an empty input gives one empty group,
exactly as in Python). -/
def splitColon : List Char → List (List Char)
  | [] => [[]]
  | c :: cs =>
    if c = ':' then
      [] :: splitColon cs
    else
      match splitColon cs with
      | [] => [[c]]
      | g :: gs => (c :: g) :: gs

/-- Python's `int` on one split group, for the plain digit strings the
configuration holds: the digits' value, or `none` when the group is
empty or holds a non-digit (where Python's `int` raises and `parse_hora`
falls back). -/
def digitosParaNat? (cs : List Char) : Option Nat :=
  if cs = [] then
    none
  else
    cs.foldl
      (fun acc c =>
        match acc with
        | none => none
        | some n => if c.isDigit then some (n * 10 + (c.toNat - 48)) else none)
      (some 0)

/-- `app.py` lines 885-890, `parse_hora`: split on `:`, convert both
pieces with `int`, and fall back to `(8, 0)` on any failure — also when
the split does not yield exactly two pieces, since the two-element
unpacking then raises.  (Python's `int` additionally tolerates
surrounding whitespace and sign characters; the configured values are
plain `HH:MM` digit strings, on which `digitosParaNat?` agrees with
it.) -/
def parse_hora (s : String) : Nat × Nat :=
  match (splitColon s.data).map digitosParaNat? with
  | [some h, some m] => (h, m)
  | _ => (8, 0)

/-- The slot-emission loop of `app.py` lines 898-900 and 908-910
(`while hora_atual < hora_final: append; hora_atual += intervalo`),
embedded with explicit fuel: `none` means the fuel ran out with the loop
still running, so the loop diverges iff every fuel amount returns
`none`. -/
def loopAux : Nat → Int → Int → Int → Option (List Int)
  | 0, cur, stop, _ => if cur < stop then none else some []
  | f + 1, cur, stop, step =>
    if cur < stop then
      (loopAux f (cur + step) stop step).map (cur :: ·)
    else
      some []

/-- The same loop bounded by a fuel budget: one unit of fuel per
iteration. -/
def genShiftF : Nat → Int → Int → Int → List Int
  | 0, _, _, _ => []
  | f + 1, cur, stop, step =>
    if cur < stop then cur :: genShiftF f (cur + step) stop step else []

/-- The slot-emission loop with the fuel budget `(stop - cur).toNat`,
which is always sufficient when `0 < step` (each iteration advances the
cursor by at least one): `loopAux_eq_genShift` below certifies that this
is the exact value of the source's unbounded loop for positive steps. -/
def genShift (cur stop step : Int) : List Int :=
  genShiftF (stop - cur).toNat cur stop step

/-- The read-path conflict loop of `app.py` lines 925-929: scan the given
appointments and report a conflict when
`horario < ag.data_hora_fim and hora_fim > ag.data_hora_inicio`
(the `for`/`break` of the source is `List.any`). -/
def overlaps (inicio fim : Int) (ags : List Agendamento) : Bool :=
  ags.any fun ag =>
    decide (inicio < ag.dataHoraFim) && decide (fim > ag.dataHoraInicio)

/-- The write-path conflict query of `app.py` lines 272-277 (and 499-504):
`Agendamento.query.filter(dentista_id == d, status.in_(['pendente',
'confirmado']), data_hora_inicio < fim, data_hora_fim > inicio).first()`
— the booking conflicts iff the query returns a row. -/
def existeConflito (ags : List Agendamento) (dentistaId : Nat)
    (inicio fim : Int) : Bool :=
  (ags.find? fun a =>
    a.dentistaId == dentistaId
      && (a.status == "pendente" || a.status == "confirmado")
      && decide (a.dataHoraInicio < fim)
      && decide (a.dataHoraFim > inicio)).isSome

/-- `app.py` lines 866-877: the `dias_habilitados` dictionary indexed by
`date.weekday()` (0 = Monday), read with `.get(dia_semana, False)`. -/
def diaHabilitado (c : Configuracao) : Int → Bool
  | 0 => c.segunda
  | 1 => c.terca
  | 2 => c.quarta
  | 3 => c.quinta
  | 4 => c.sexta
  | 5 => c.sabado
  | 6 => c.domingo
  | _ => false

/-- `app.py` lines 880-910: the candidate-slot generation of
`horarios_disponiveis` — parse the configured shift bounds with
`parse_hora` and a falsy-`or` default per field, then run the morning and
the afternoon emission loop with the configured interval
(`config.intervalo_consultas or 30`).  `data` is the selected calendar
day. -/
def gerarHorariosBase (config : Configuracao) (data : Int) : List Int :=
  let intervalo := orInt config.intervaloConsultas 30
  let im := parse_hora (orStr config.horaInicioManha "08:00")
  let fm := parse_hora (orStr config.horaFimManha "12:00")
  let manha :=
    genShift (data * 1440 + ((im.1 : Int) * 60 + im.2))
      (data * 1440 + ((fm.1 : Int) * 60 + fm.2)) intervalo
  let it := parse_hora (orStr config.horaInicioTarde "14:00")
  let ft := parse_hora (orStr config.horaFimTarde "18:00")
  let tarde :=
    genShift (data * 1440 + ((it.1 : Int) * 60 + it.2))
      (data * 1440 + ((ft.1 : Int) * 60 + ft.2)) intervalo
  manha ++ tarde

/-- `app.py` lines 839-934, route `horarios_disponiveis`: `none` is the
404 for an unresolved service; on a closed weekday the route answers with
an empty slot list; otherwise the generated candidates are filtered
against the dentist's pending/confirmed appointments *whose start falls on
the selected date* (`db.func.date(data_hora_inicio) == data_selecionada`).
The route formats each surviving start as `HH:MM`; the embedding returns
the start timestamps themselves. -/
def horariosDisponiveis (config : Configuracao) (est : Estado)
    (dentistaId servicoId : Nat) (data : Int) : Option (List Int) :=
  match est.servicos.find? (fun s => s.id == servicoId) with
  | none => none
  | some servico =>
    if diaHabilitado config (data.emod 7) then
      let horariosBase := gerarHorariosBase config data
      let agendamentosDia := est.agendamentos.filter fun a =>
        a.dentistaId == dentistaId
          && (a.status == "pendente" || a.status == "confirmado")
          && a.dataHoraInicio.ediv 1440 == data
      some (horariosBase.filter fun h =>
        !overlaps h (h + servico.duracaoMinutos) agendamentosDia)
    else
      some []

/-- Outcome tags of the booking routes, one per flash/return path of
`agendar` and `admin_novo_agendamento` (`dataPassada` is the
`'Não é possível agendar para datas passadas.'` rejection, i.e. the
spec's `InvalidTime`; `servicoNaoEncontrado` is `NotFound`;
`horarioIndisponivel` is `SlotTaken`). -/
inductive ResAgendar where
  | ok
  | dataPassada
  | servicoNaoEncontrado
  | horarioIndisponivel
deriving DecidableEq, Repr

/-- `app.py` lines 232-300, route `agendar` (patient-initiated booking),
starting after form decoding: reject a start not strictly in the future
(`data_hora_inicio <= datetime.now()`), look the service up
(`Servico.query.get`), compute `fim = inicio + duracao_minutos`, run the
conflict query, and on success insert the appointment with status
`'pendente'`.  `novoId` stands for the database-assigned primary key.
The route never looks the dentist up and checks no `ativo` flag. -/
def agendar (est : Estado) (now : Int) (pacienteId servicoId dentistaId : Nat)
    (inicio : Int) (observacoes : String) (novoId : Nat) :
    ResAgendar × Estado :=
  if inicio ≤ now then
    (ResAgendar.dataPassada, est)
  else
    match est.servicos.find? (fun s => s.id == servicoId) with
    | none => (ResAgendar.servicoNaoEncontrado, est)
    | some servico =>
      let fim := inicio + servico.duracaoMinutos
      if existeConflito est.agendamentos dentistaId inicio fim then
        (ResAgendar.horarioIndisponivel, est)
      else
        (ResAgendar.ok,
          { est with agendamentos := est.agendamentos ++
              [⟨novoId, pacienteId, dentistaId, servicoId, inicio, fim,
                observacoes, "pendente"⟩] })

/-- `app.py` lines 452-533, route `admin_novo_agendamento`
(admin-initiated booking), starting after form decoding: look the service
up, compute the end, run the same conflict query, and insert with status
`'confirmado'`.  Unlike the patient route it performs **no**
start-in-the-future check, and it too never looks the dentist up and
checks no `ativo` flag. -/
def adminNovoAgendamento (est : Estado)
    (pacienteId servicoId dentistaId : Nat) (inicio : Int)
    (observacoes : String) (novoId : Nat) : ResAgendar × Estado :=
  match est.servicos.find? (fun s => s.id == servicoId) with
  | none => (ResAgendar.servicoNaoEncontrado, est)
  | some servico =>
    let fim := inicio + servico.duracaoMinutos
    if existeConflito est.agendamentos dentistaId inicio fim then
      (ResAgendar.horarioIndisponivel, est)
    else
      (ResAgendar.ok,
        { est with agendamentos := est.agendamentos ++
            [⟨novoId, pacienteId, dentistaId, servicoId, inicio, fim,
              observacoes, "confirmado"⟩] })

/-- The single-row status update `agendamento.status = s; commit` applied
to the row fetched by primary key. -/
def atualizaStatusLista (l : List Agendamento) (i : Nat) (s : String) :
    List Agendamento :=
  l.map fun a => if a.id == i then { a with status := s } else a

/-- Outcome tags of `cancelar_agendamento` (`naoEncontrado` is
`get_or_404`; `semPermissao` is the spec's `Forbidden`;
`naoPodeCancelar` is `'Este agendamento não pode ser cancelado.'`, the
spec's `AlreadyTerminal`). -/
inductive ResCancelar where
  | ok
  | naoEncontrado
  | semPermissao
  | naoPodeCancelar
deriving DecidableEq, Repr

/-- `app.py` lines 303-323, route `cancelar_agendamento`: fetch by id
(`get_or_404`), reject a requester who does not own the row, reject a row
whose status is already `'cancelado'` or `'concluido'`, otherwise set the
status to `'cancelado'`. -/
def cancelarAgendamento (est : Estado) (i : Nat) (pacienteId : Nat) :
    ResCancelar × Estado :=
  match est.agendamentos.find? (fun a => a.id == i) with
  | none => (ResCancelar.naoEncontrado, est)
  | some ag =>
    if ag.pacienteId != pacienteId then
      (ResCancelar.semPermissao, est)
    else if ag.status == "cancelado" || ag.status == "concluido" then
      (ResCancelar.naoPodeCancelar, est)
    else
      (ResCancelar.ok,
        { est with agendamentos :=
            atualizaStatusLista est.agendamentos i "cancelado" })

/-- Outcome tags of `atualizar_status_agendamento` (`statusInvalido` is
the `'Status inválido.'` rejection, the spec's `InvalidStatus`). -/
inductive ResStatus where
  | ok
  | naoEncontrado
  | statusInvalido
deriving DecidableEq, Repr

/-- `app.py` lines 434-449, route `atualizar_status_agendamento` (the
admin `setStatus`): fetch by id, and if the requested status is one of
`'confirmado'`, `'cancelado'`, `'concluido'` overwrite the row's status
with it — there is no check of the row's current status. -/
def atualizarStatusAgendamento (est : Estado) (i : Nat)
    (novoStatus : String) : ResStatus × Estado :=
  match est.agendamentos.find? (fun a => a.id == i) with
  | none => (ResStatus.naoEncontrado, est)
  | some _ =>
    if novoStatus == "confirmado" || novoStatus == "cancelado"
        || novoStatus == "concluido" then
      (ResStatus.ok,
        { est with agendamentos :=
            atualizaStatusLista est.agendamentos i novoStatus })
    else
      (ResStatus.statusInvalido, est)

/-- An appointment is in the conflict set iff its status is `'pendente'`
or `'confirmado'` (`status.in_(['pendente', 'confirmado'])`). -/
def ehAtivo (a : Agendamento) : Prop :=
  a.status = "pendente" ∨ a.status = "confirmado"

instance (a : Agendamento) : Decidable (ehAtivo a) := by
  unfold ehAtivo; infer_instance

/-- Two appointment rows are compatible when, if they belong to the same
dentist and both are pending/confirmed, their half-open intervals do not
overlap (`[s1, e1)` and `[s2, e2)` overlap iff `s1 < e2 ∧ s2 < e1`). -/
def semConflito (a b : Agendamento) : Prop :=
  a.dentistaId = b.dentistaId → ehAtivo a → ehAtivo b →
    ¬(a.dataHoraInicio < b.dataHoraFim ∧ b.dataHoraInicio < a.dataHoraFim)

instance (a b : Agendamento) : Decidable (semConflito a b) := by
  unfold semConflito; infer_instance

/-- The spec's practitioner-wise invariant: the stored appointments are
pairwise compatible. -/
def InvariantePratico (l : List Agendamento) : Prop :=
  l.Pairwise semConflito

/-- The states reachable from an empty appointment table through the four
exposed mutating operations named by the spec: patient booking, admin
booking, patient cancellation and the admin status update.  The initial
services table is arbitrary (service rows are created by the unmodelled
CRUD screens, which never touch appointments). -/
inductive Alcancavel : Estado → Prop where
  | inicial (servicos : List Servico) : Alcancavel ⟨[], servicos⟩
  | agendar (est : Estado) (now : Int) (p sid d : Nat) (ini : Int)
      (obs : String) (nid : Nat) (h : Alcancavel est) :
      Alcancavel (agendar est now p sid d ini obs nid).2
  | admin (est : Estado) (p sid d : Nat) (ini : Int) (obs : String)
      (nid : Nat) (h : Alcancavel est) :
      Alcancavel (adminNovoAgendamento est p sid d ini obs nid).2
  | cancelar (est : Estado) (i p : Nat) (h : Alcancavel est) :
      Alcancavel (cancelarAgendamento est i p).2
  | status (est : Estado) (i : Nat) (ns : String) (h : Alcancavel est) :
      Alcancavel (atualizarStatusAgendamento est i ns).2

/-- The states reachable through booking and cancellation alone, i.e.
without the admin status-update route. -/
inductive AlcancavelBC : Estado → Prop where
  | inicial (servicos : List Servico) : AlcancavelBC ⟨[], servicos⟩
  | agendar (est : Estado) (now : Int) (p sid d : Nat) (ini : Int)
      (obs : String) (nid : Nat) (h : AlcancavelBC est) :
      AlcancavelBC (agendar est now p sid d ini obs nid).2
  | admin (est : Estado) (p sid d : Nat) (ini : Int) (obs : String)
      (nid : Nat) (h : AlcancavelBC est) :
      AlcancavelBC (adminNovoAgendamento est p sid d ini obs nid).2
  | cancelar (est : Estado) (i p : Nat) (h : AlcancavelBC est) :
      AlcancavelBC (cancelarAgendamento est i p).2

/-- A booking request, as it reaches the check-then-insert sequence of
`agendar`: the requested start, the duration already resolved from the
service row, and the referenced parties. -/
structure Pedido where
  pacienteId : Nat
  dentistaId : Nat
  servicoId : Nat
  inicio : Int
  dur : Int
deriving DecidableEq, Repr

/-- Phase one of a booking transaction: the conflict query of `app.py`
lines 272-277 against the rows visible at that moment. -/
def verificaConflito (ags : List Agendamento) (r : Pedido) : Bool :=
  existeConflito ags r.dentistaId r.inicio (r.inicio + r.dur)

/-- Phase two of a booking transaction: the `db.session.add` + `commit`
of `app.py` lines 283-295, inserting the `'pendente'` row. -/
def insere (ags : List Agendamento) (r : Pedido) (nid : Nat) :
    List Agendamento :=
  ags ++ [⟨nid, r.pacienteId, r.dentistaId, r.servicoId, r.inicio,
    r.inicio + r.dur, "", "pendente"⟩]

/-- Two booking transactions run one after the other: A's check and
insert complete before B's check runs. -/
def execSerial (ags : List Agendamento) (rA rB : Pedido) :
    Bool × Bool × List Agendamento :=
  let okA := !verificaConflito ags rA
  let ags1 := if okA then insere ags rA 1 else ags
  let okB := !verificaConflito ags1 rB
  (okA, okB, if okB then insere ags1 rB 2 else ags1)

/-- Two booking transactions interleaved so that both conflict queries
run before either insert commits — an interleaving nothing in the source
prevents: the route holds no lock, and the store enforces no exclusion
constraint. -/
def execIntercalado (ags : List Agendamento) (rA rB : Pedido) :
    Bool × Bool × List Agendamento :=
  let okA := !verificaConflito ags rA
  let okB := !verificaConflito ags rB
  let ags1 := if okA then insere ags rA 1 else ags
  (okA, okB, if okB then insere ags1 rB 2 else ags1)

/-! ### Concrete states used by the scenario theorems -/

/-- The configuration row as `init_database` creates it together with the
column defaults of `models.py`: shifts 08:00-12:00 and 14:00-18:00,
30-minute interval, open Monday through Friday. -/
def cfgPadrao : Configuracao :=
  ⟨some "08:00", some "12:00", some "14:00", some "18:00", some 30,
   true, true, true, true, true, false, false⟩

/-- A reachable state with two overlapping active appointments for the
same dentist: book [960, 990) (row 1, pendente) — admin sets row 1 to
`'cancelado'` — book [960, 990) again (row 2, accepted because row 1 is
out of the conflict set) — admin sets row 1 back to `'confirmado'`.
The status route re-activates the cancelled row with no conflict
re-check. -/
def estRuim : Estado :=
  (atualizarStatusAgendamento
    (agendar
      (atualizarStatusAgendamento
        (agendar ⟨[], [⟨1, 30, true⟩]⟩ 0 5 1 1 960 "" 1).2
        1 "cancelado").2
      0 7 1 1 960 "" 2).2
    1 "confirmado").2

/-- A store holding one confirmed appointment of dentist 1 that starts on
day -1 at 20:00 and ends on day 0 at 11:00 (a 900-minute service): its
start date differs from day 0, so the read path's date filter misses
it. -/
def estC2 : Estado :=
  ⟨[⟨1, 1, 1, 1, -240, 660, "", "confirmado"⟩], [⟨1, 30, true⟩]⟩

/-- A store holding one already-cancelled appointment. -/
def estTerminal : Estado :=
  ⟨[⟨1, 5, 1, 1, 480, 510, "", "cancelado"⟩], []⟩

/-! ### Lemmas about the slot-emission loop -/

theorem genShiftF_stop (f : Nat) (cur stop step : Int) (h : ¬ cur < stop) :
    genShiftF f cur stop step = [] := by
  cases f <;> simp [genShiftF, h]

theorem genShiftF_eq_of_le (step : Int) (hs : 0 < step) :
    ∀ (f₁ f₂ : Nat) (cur stop : Int),
      (stop - cur).toNat ≤ f₁ → (stop - cur).toNat ≤ f₂ →
      genShiftF f₁ cur stop step = genShiftF f₂ cur stop step := by
  intro f₁
  induction f₁ using Nat.strong_induction_on with
  | _ f₁ ih =>
    intro f₂ cur stop h1 h2
    by_cases h : cur < stop
    · obtain ⟨a, rfl⟩ : ∃ a, f₁ = a + 1 := ⟨f₁ - 1, by omega⟩
      obtain ⟨b, rfl⟩ : ∃ b, f₂ = b + 1 := ⟨f₂ - 1, by omega⟩
      simp only [genShiftF, if_pos h]
      congr 1
      exact ih a (by omega) b (cur + step) stop (by omega) (by omega)
    · rw [genShiftF_stop _ _ _ _ h, genShiftF_stop _ _ _ _ h]

theorem genShift_stop (cur stop step : Int) (h : ¬ cur < stop) :
    genShift cur stop step = [] :=
  genShiftF_stop _ _ _ _ h

theorem genShift_unfold (cur stop step : Int) (hs : 0 < step)
    (h : cur < stop) :
    genShift cur stop step = cur :: genShift (cur + step) stop step := by
  unfold genShift
  obtain ⟨k, hk⟩ : ∃ k, (stop - cur).toNat = k + 1 :=
    ⟨(stop - cur).toNat - 1, by omega⟩
  rw [hk]
  simp only [genShiftF, if_pos h]
  congr 1
  exact genShiftF_eq_of_le step hs k ((stop - (cur + step)).toNat)
    (cur + step) stop (by omega) (le_refl _)

/-- Characterization of the emitted slots, for a positive step: exactly
the timestamps `cur + k * step` (`k : ℕ`) that are strictly below the
shift end, regardless of any service duration. -/
theorem mem_genShift (stop step : Int) (hs : 0 < step) :
    ∀ (n : Nat) (cur : Int), (stop - cur).toNat = n →
      ∀ x : Int, x ∈ genShift cur stop step ↔
        ∃ k : Nat, x = cur + (k : Int) * step ∧ x < stop := by
  intro n
  induction n using Nat.strong_induction_on with
  | _ n ih =>
    intro cur hn x
    by_cases h : cur < stop
    · rw [genShift_unfold cur stop step hs h, List.mem_cons,
        ih (stop - (cur + step)).toNat (by omega) (cur + step) rfl x]
      constructor
      · rintro (rfl | ⟨k, rfl, hk⟩)
        · exact ⟨0, by simp, h⟩
        · refine ⟨k + 1, ?_, hk⟩
          push_cast
          ring
      · rintro ⟨k, rfl, hk⟩
        cases k with
        | zero => left; simp
        | succ j =>
          right
          refine ⟨j, ?_, hk⟩
          push_cast
          ring
    · rw [genShift_stop cur stop step h]
      simp only [List.not_mem_nil, false_iff, not_exists, not_and]
      intro k hx
      have hk : (0 : Int) ≤ (k : Int) * step :=
        mul_nonneg (Int.natCast_nonneg k) hs.le
      omega

/-- For a positive step the unbounded source loop terminates, and its
value is `genShift`: the fuel budget `(stop - cur).toNat` suffices. -/
theorem loopAux_eq_genShift (step : Int) (hs : 0 < step) :
    ∀ (f : Nat) (cur stop : Int), (stop - cur).toNat ≤ f →
      loopAux f cur stop step = some (genShift cur stop step) := by
  intro f
  induction f with
  | zero =>
    intro cur stop h
    have h' : ¬ cur < stop := by omega
    rw [genShift_stop cur stop step h']
    simp [loopAux, h']
  | succ f ihf =>
    intro cur stop h
    by_cases h' : cur < stop
    · rw [genShift_unfold cur stop step hs h']
      simp only [loopAux, if_pos h']
      rw [ihf (cur + step) stop (by omega)]
      rfl
    · rw [genShift_stop cur stop step h']
      simp [loopAux, h']

/-- For a negative step and a cursor strictly below the shift end, the
source loop never exits: no fuel amount completes it. -/
theorem loopAux_diverge (step : Int) (hs : step < 0) :
    ∀ (f : Nat) (cur stop : Int), cur < stop →
      loopAux f cur stop step = none := by
  intro f
  induction f with
  | zero =>
    intro cur stop h
    simp [loopAux, h]
  | succ f ihf =>
    intro cur stop h
    simp only [loopAux, if_pos h]
    rw [ihf (cur + step) stop (by omega)]
    rfl

/-! ### Lemmas about the conflict check and the invariant -/

/-- The write-path conflict query fires iff some stored row of the same
dentist is pending/confirmed and overlaps the candidate interval in the
half-open sense. -/
theorem existeConflito_iff (ags : List Agendamento) (d : Nat)
    (ini fim : Int) :
    existeConflito ags d ini fim = true ↔
      ∃ a ∈ ags, a.dentistaId = d ∧ ehAtivo a ∧
        a.dataHoraInicio < fim ∧ ini < a.dataHoraFim := by
  unfold existeConflito
  rw [List.find?_isSome]
  constructor
  · rintro ⟨a, ha, hp⟩
    simp only [Bool.and_eq_true, Bool.or_eq_true, beq_iff_eq,
      decide_eq_true_eq] at hp
    exact ⟨a, ha, hp.1.1.1, hp.1.1.2, hp.1.2, hp.2⟩
  · rintro ⟨a, ha, h1, h2, h3, h4⟩
    refine ⟨a, ha, ?_⟩
    simp only [Bool.and_eq_true, Bool.or_eq_true, beq_iff_eq,
      decide_eq_true_eq]
    exact ⟨⟨⟨h1, h2⟩, h3⟩, h4⟩

/-- Appending a row that passed the conflict check preserves the
practitioner-wise non-overlap invariant (whatever the new row's own
status is). -/
theorem insere_preserva {l : List Agendamento} {novo : Agendamento}
    (hInv : InvariantePratico l)
    (hc : existeConflito l novo.dentistaId novo.dataHoraInicio
      novo.dataHoraFim = false) :
    InvariantePratico (l ++ [novo]) := by
  unfold InvariantePratico at *
  rw [List.pairwise_append]
  refine ⟨hInv, List.pairwise_singleton _ _, ?_⟩
  intro a ha b hb
  rw [List.mem_singleton] at hb
  rw [hb]
  intro hdent hA _ hov
  have htrue : existeConflito l novo.dentistaId novo.dataHoraInicio
      novo.dataHoraFim = true :=
    (existeConflito_iff _ _ _ _).mpr ⟨a, ha, hdent, hA, hov.1, hov.2⟩
  rw [hc] at htrue
  exact Bool.false_ne_true htrue

/-- Overwriting one row's status with a non-active status (`'cancelado'`
or `'concluido'`) preserves the invariant: the row leaves the conflict
set and every other field is untouched. -/
theorem atualiza_preserva (l : List Agendamento) (i : Nat) (s : String)
    (h1 : s ≠ "pendente") (h2 : s ≠ "confirmado")
    (hInv : InvariantePratico l) :
    InvariantePratico (atualizaStatusLista l i s) := by
  have H : ∀ a b : Agendamento, semConflito a b →
      semConflito (if a.id == i then { a with status := s } else a)
        (if b.id == i then { b with status := s } else b) := by
    intro a b hab
    by_cases ha : (a.id == i) = true
    · intro _ hA _
      rw [if_pos ha] at hA
      simp [ehAtivo, h1, h2] at hA
    · by_cases hb : (b.id == i) = true
      · intro _ _ hB
        rw [if_pos hb] at hB
        simp [ehAtivo, h1, h2] at hB
      · rw [if_neg ha, if_neg hb]
        exact hab
  exact List.Pairwise.map _ H hInv

/-- The single-row status update leaves the row visible under the same
primary-key lookup, with only its status changed. -/
theorem find?_atualiza (l : List Agendamento) (i : Nat) (s : String)
    (ag : Agendamento) (h : l.find? (fun a => a.id == i) = some ag) :
    (atualizaStatusLista l i s).find? (fun a => a.id == i) =
      some { ag with status := s } := by
  induction l with
  | nil => simp [List.find?] at h
  | cons x xs ih =>
    unfold atualizaStatusLista at ih ⊢
    by_cases hx : (x.id == i) = true
    · simp only [List.find?, hx] at h
      injection h with h
      subst h
      simp [List.find?, hx]
    · simp only [List.find?, hx] at h
      have hcond : (if (x.id == i) = true then { x with status := s } else x)
          = x := if_neg hx
      rw [List.map_cons, hcond]
      simp only [List.find?, hx]
      exact ih h

/-- The patient booking route preserves the invariant. -/
theorem agendar_inv (est : Estado) (now : Int) (p sid d : Nat)
    (ini : Int) (obs : String) (nid : Nat)
    (h : InvariantePratico est.agendamentos) :
    InvariantePratico ((agendar est now p sid d ini obs nid).2).agendamentos := by
  unfold agendar
  split
  · exact h
  · split
    · exact h
    · rename_i servico heq
      dsimp only
      split
      · exact h
      · rename_i hc
        exact insere_preserva h (by simpa using hc)

/-- The admin booking route preserves the invariant. -/
theorem admin_inv (est : Estado) (p sid d : Nat) (ini : Int)
    (obs : String) (nid : Nat)
    (h : InvariantePratico est.agendamentos) :
    InvariantePratico
      ((adminNovoAgendamento est p sid d ini obs nid).2).agendamentos := by
  unfold adminNovoAgendamento
  split
  · exact h
  · rename_i servico heq
    dsimp only
    split
    · exact h
    · rename_i hc
      exact insere_preserva h (by simpa using hc)

/-- The cancellation route preserves the invariant. -/
theorem cancelar_inv (est : Estado) (i p : Nat)
    (h : InvariantePratico est.agendamentos) :
    InvariantePratico ((cancelarAgendamento est i p).2).agendamentos := by
  unfold cancelarAgendamento
  split
  · exact h
  · split
    · exact h
    · split
      · exact h
      · exact atualiza_preserva _ _ _ (by decide) (by decide) h

/-- The read-path conflict loop is silent iff no listed appointment
overlaps the candidate interval. -/
theorem overlaps_eq_false_iff (ini fim : Int) (ags : List Agendamento) :
    overlaps ini fim ags = false ↔
      ∀ a ∈ ags, ¬(ini < a.dataHoraFim ∧ a.dataHoraInicio < fim) := by
  unfold overlaps
  rw [List.any_eq_false]
  constructor
  · intro H a ha hab
    refine H a ha ?_
    simp only [Bool.and_eq_true, decide_eq_true_eq]
    exact ⟨hab.1, hab.2⟩
  · intro H a ha hp
    simp only [Bool.and_eq_true, decide_eq_true_eq] at hp
    exact H a ha ⟨hp.1, hp.2⟩

/-! ### The claims -/

/-- C4: the conflict check `overlaps(candidateStart, candidateEnd,
existing)` returns true iff some appointment `a` in `existing` satisfies
`candidateStart < a.end` and `a.start < candidateEnd`; consequently
`overlaps` against the empty list is false, and a touching interval
(`candidateStart = a.end` or `candidateEnd = a.start`) is never reported
as a conflict. -/
theorem C4_theorem :
    (∀ (s e : Int) (ags : List Agendamento),
      overlaps s e ags = true ↔
        ∃ a ∈ ags, s < a.dataHoraFim ∧ a.dataHoraInicio < e)
    ∧ (∀ s e : Int, overlaps s e [] = false)
    ∧ (∀ (s e : Int) (a : Agendamento),
        s = a.dataHoraFim ∨ e = a.dataHoraInicio →
        overlaps s e [a] = false) := by
  refine ⟨?_, ?_, ?_⟩
  · intro s e ags
    unfold overlaps
    rw [List.any_eq_true]
    constructor
    · rintro ⟨a, ha, hp⟩
      simp only [Bool.and_eq_true, decide_eq_true_eq] at hp
      exact ⟨a, ha, hp.1, hp.2⟩
    · rintro ⟨a, ha, h1, h2⟩
      refine ⟨a, ha, ?_⟩
      simp only [Bool.and_eq_true, decide_eq_true_eq]
      exact ⟨h1, h2⟩
  · intro s e
    rfl
  · intro s e a h
    rcases h with h | h <;> subst h <;>
      simp [overlaps, lt_irrefl]

/-- C4 witness: the candidate [600, 630) touching an appointment that
ends at 600 is not a conflict. -/
theorem C4_witness :
    overlaps 600 630 [⟨1, 1, 1, 1, 570, 600, "", "confirmado"⟩] = false :=
  C4_theorem.2.2 600 630 ⟨1, 1, 1, 1, 570, 600, "", "confirmado"⟩
    (Or.inl rfl)

/-- C5: on an open weekday the generator emits, per shift, the
timestamps `shiftStart + k * interval` that are strictly below
`shiftEnd` (duration plays no role, so a slot is emitted even when
`slot + duration` runs past the shift end); with the default
configuration the morning block is exactly 08:00 ... 11:30 followed by
the afternoon block 14:00 ... 17:30, and a 60-minute service still
receives the 11:30 and 17:30 slots. -/
theorem C5_theorem :
    (∀ (cur stop step : Int), 0 < step →
      ∀ x : Int, x ∈ genShift cur stop step ↔
        ∃ k : Nat, x = cur + (k : Int) * step ∧ x < stop)
    ∧ gerarHorariosBase cfgPadrao 0 =
        [480, 510, 540, 570, 600, 630, 660, 690,
         840, 870, 900, 930, 960, 990, 1020, 1050]
    ∧ horariosDisponiveis cfgPadrao ⟨[], [⟨1, 60, true⟩]⟩ 1 1 0 =
        some [480, 510, 540, 570, 600, 630, 660, 690,
              840, 870, 900, 930, 960, 990, 1020, 1050] := by
  refine ⟨?_, by decide, by decide⟩
  intro cur stop step hs x
  exact mem_genShift stop step hs _ cur rfl x

/-- C5 witness: 08:30 (510) is among the slots generated for the default
morning shift. -/
theorem C5_witness : (510 : Int) ∈ genShift 480 720 30 :=
  (C5_theorem.1 480 720 30 (by decide) 510).mpr ⟨1, by decide, by decide⟩

/-- C10: slot generation terminates whenever the effective interval
(`config.intervalo_consultas or 30`) is positive, and a missing or zero
stored interval is replaced by 30 before the loops run; a negative stored
interval is kept as-is, and with it the per-shift loop never exits once
the cursor starts strictly below the shift end — positivity of the
effective interval is the precondition for totality. -/
theorem C10_theorem (i : Option Int) :
    (0 < orInt i 30 → ∀ cur stop : Int,
      ∃ f : Nat, loopAux f cur stop (orInt i 30) =
        some (genShift cur stop (orInt i 30)))
    ∧ orInt none 30 = 30
    ∧ orInt (some 0) 30 = 30
    ∧ (∀ v : Int, v < 0 → orInt (some v) 30 = v)
    ∧ (orInt i 30 < 0 → ∀ cur stop : Int, cur < stop →
        ∀ f : Nat, loopAux f cur stop (orInt i 30) = none) := by
  refine ⟨?_, rfl, by decide, ?_, ?_⟩
  · intro hpos cur stop
    exact ⟨(stop - cur).toNat,
      loopAux_eq_genShift _ hpos _ _ _ (le_refl _)⟩
  · intro v hv
    simp only [orInt]
    rw [if_neg hv.ne]
  · intro hneg cur stop hlt f
    exact loopAux_diverge _ hneg f cur stop hlt

/-- C10 witness: with the stored interval 30 the loop terminates on the
default morning shift, and with the stored interval -30 (kept by the
falsy-`or`) it returns no result at fuel 5. -/
theorem C10_witness :
    (∃ f : Nat, loopAux f 480 720 (orInt (some 30) 30) =
      some (genShift 480 720 (orInt (some 30) 30)))
    ∧ loopAux 5 480 720 (orInt (some (-30)) 30) = none :=
  ⟨(C10_theorem (some 30)).1 (by decide) 480 720,
   (C10_theorem (some (-30))).2.2.2.2 (by decide) 480 720 (by decide) 5⟩

/-- C1 counterexample: through book / setStatus-to-cancelado / book /
setStatus-to-confirmado the exposed operations reach a state whose
active (pendente/confirmado) appointments of dentist 1 are the two
overlapping intervals [960, 990) and [960, 990) — the claimed invariant
does not hold in every reachable state, because the status route
re-activates a terminal row without re-running the conflict check. -/
theorem C1_counterexample :
    Alcancavel estRuim
    ∧ estRuim.agendamentos =
        [⟨1, 5, 1, 1, 960, 990, "", "confirmado"⟩,
         ⟨2, 7, 1, 1, 960, 990, "", "pendente"⟩]
    ∧ ¬ InvariantePratico estRuim.agendamentos := by
  refine ⟨?_, by decide, ?_⟩
  · exact Alcancavel.status _ 1 "confirmado"
      (Alcancavel.agendar _ 0 7 1 1 960 "" 2
        (Alcancavel.status _ 1 "cancelado"
          (Alcancavel.agendar _ 0 5 1 1 960 "" 1
            (Alcancavel.inicial [⟨1, 30, true⟩]))))
  · intro hinv
    rw [show estRuim.agendamentos =
        [⟨1, 5, 1, 1, 960, 990, "", "confirmado"⟩,
         ⟨2, 7, 1, 1, 960, 990, "", "pendente"⟩] from by decide] at hinv
    have hrel := (List.pairwise_cons.mp hinv).1 _
      (List.mem_singleton.mpr rfl)
    exact hrel rfl (Or.inr rfl) (Or.inl rfl) ⟨by decide, by decide⟩

/-- C1 (amended): in every state reachable through the booking paths and
patient cancellation — i.e. through the exposed operations other than
the admin status update, whose terminal-row re-activation the
counterexample exhibits — the pending/confirmed appointments of each
practitioner are pairwise non-overlapping under half-open semantics. -/
theorem C1_theorem (est : Estado) (h : AlcancavelBC est) :
    InvariantePratico est.agendamentos := by
  induction h with
  | inicial servicos => exact List.Pairwise.nil
  | agendar est now p sid d ini obs nid h ih =>
    exact agendar_inv est now p sid d ini obs nid ih
  | admin est p sid d ini obs nid h ih =>
    exact admin_inv est p sid d ini obs nid ih
  | cancelar est i p h ih =>
    exact cancelar_inv est i p ih

/-- C1 witness: the invariant holds in the state reached by one
successful booking. -/
theorem C1_witness :
    InvariantePratico
      ((agendar ⟨[], [⟨1, 30, true⟩]⟩ 0 5 1 1 960 "" 1).2).agendamentos :=
  C1_theorem _ (AlcancavelBC.agendar _ 0 5 1 1 960 "" 1
    (AlcancavelBC.inicial [⟨1, 30, true⟩]))

/-- C2 counterexample: on the store `estC2` (one confirmed appointment
of dentist 1 running from day -1 20:00 to day 0 11:00), the read path
for day 0 returns the 08:00 slot — the appointment's start date is
day -1, so the date filter drops it — yet the write path's conflict
check rejects exactly that interval: the read-path and write-path
conflict logic disagree on this static snapshot. -/
theorem C2_counterexample :
    (480 : Int) ∈ (horariosDisponiveis cfgPadrao estC2 1 1 0).getD []
    ∧ existeConflito estC2.agendamentos 1 480 (480 + 30) = true := by
  decide

/-- C2 (amended): on a static snapshot, every slot returned by the read
path also passes the write path's conflict check *provided* every
pending/confirmed appointment of the practitioner starts on the
requested date (the read path filters the conflict set by start date;
the write path does not, which the counterexample exploits with an
appointment starting the previous day). -/
theorem C2_theorem (config : Configuracao) (est : Estado)
    (dentistaId servicoId : Nat) (data : Int) (servico : Servico)
    (horarios : List Int)
    (hs : est.servicos.find? (fun s => s.id == servicoId) = some servico)
    (hall : ∀ a ∈ est.agendamentos, a.dentistaId = dentistaId →
      ehAtivo a → a.dataHoraInicio.ediv 1440 = data)
    (hres : horariosDisponiveis config est dentistaId servicoId data =
      some horarios) :
    ∀ h ∈ horarios,
      existeConflito est.agendamentos dentistaId h
        (h + servico.duracaoMinutos) = false := by
  unfold horariosDisponiveis at hres
  rw [hs] at hres
  dsimp only at hres
  by_cases hd : diaHabilitado config (data.emod 7) = true
  · rw [if_pos hd] at hres
    injection hres with hres
    subst hres
    intro h hh
    rw [List.mem_filter] at hh
    obtain ⟨hbase, hfree⟩ := hh
    rw [Bool.not_eq_true'] at hfree
    by_contra hcon
    rw [Bool.not_eq_false] at hcon
    obtain ⟨a, ha, hdent, hat, h1, h2⟩ :=
      (existeConflito_iff _ _ _ _).mp hcon
    have hmem : a ∈ est.agendamentos.filter (fun a =>
        a.dentistaId == dentistaId
          && (a.status == "pendente" || a.status == "confirmado")
          && a.dataHoraInicio.ediv 1440 == data) := by
      rw [List.mem_filter]
      refine ⟨ha, ?_⟩
      simp only [Bool.and_eq_true, Bool.or_eq_true, beq_iff_eq,
        decide_eq_true_eq]
      exact ⟨⟨hdent, hat⟩, hall a ha hdent hat⟩
    exact (overlaps_eq_false_iff _ _ _).mp hfree a hmem ⟨h2, h1⟩
  · rw [if_neg hd] at hres
    injection hres with hres
    subst hres
    intro h hh
    simp at hh

/-- C2 witness: with one confirmed appointment [480, 510) of dentist 1
on day 0, the slot 510 the read path returns also passes the write
path's check. -/
theorem C2_witness :
    existeConflito
      (⟨[⟨1, 9, 1, 1, 480, 510, "", "confirmado"⟩], [⟨1, 30, true⟩]⟩ :
        Estado).agendamentos 1 510 (510 + 30) = false :=
  C2_theorem cfgPadrao
    ⟨[⟨1, 9, 1, 1, 480, 510, "", "confirmado"⟩], [⟨1, 30, true⟩]⟩
    1 1 0 ⟨1, 30, true⟩
    [510, 540, 570, 600, 630, 660, 690,
     840, 870, 900, 930, 960, 990, 1020, 1050]
    (by decide) (by decide) (by decide) 510 (by decide)

/-- C3 counterexample: two booking transactions for the same dentist and
the identical interval [480, 510), interleaved so that both conflict
queries run before either insert commits — an interleaving the source
does not prevent (no lock, no storage exclusion constraint): both pass
the check and both rows are inserted, where the claim demands that at
most one succeed. -/
theorem C3_counterexample :
    (execIntercalado [] ⟨5, 1, 1, 480, 30⟩ ⟨7, 1, 1, 480, 30⟩).1 = true
    ∧ (execIntercalado [] ⟨5, 1, 1, 480, 30⟩ ⟨7, 1, 1, 480, 30⟩).2.1 = true
    ∧ (execIntercalado [] ⟨5, 1, 1, 480, 30⟩ ⟨7, 1, 1, 480, 30⟩).2.2 =
        [⟨1, 5, 1, 1, 480, 510, "", "pendente"⟩,
         ⟨2, 7, 1, 1, 480, 510, "", "pendente"⟩] := by
  decide

/-- C3 (amended): when the two booking transactions do not interleave —
the first call's check and insert complete before the second call's
check runs — at most one of two calls for the same practitioner with
overlapping intervals succeeds: if the first one inserted its row, the
second one's conflict query fires and it fails with SlotTaken. -/
theorem C3_theorem (ags : List Agendamento) (rA rB : Pedido)
    (hdent : rA.dentistaId = rB.dentistaId)
    (hov1 : rB.inicio < rA.inicio + rA.dur)
    (hov2 : rA.inicio < rB.inicio + rB.dur)
    (hA : (execSerial ags rA rB).1 = true) :
    (execSerial ags rA rB).2.1 = false := by
  unfold execSerial at hA ⊢
  dsimp only at hA ⊢
  rw [hA, if_pos rfl]
  have hc : verificaConflito (insere ags rA 1) rB = true := by
    unfold verificaConflito insere
    rw [existeConflito_iff]
    exact ⟨⟨1, rA.pacienteId, rA.dentistaId, rA.servicoId, rA.inicio,
      rA.inicio + rA.dur, "", "pendente"⟩,
      List.mem_append_right _ (List.mem_singleton.mpr rfl),
      hdent, Or.inl rfl, hov2, hov1⟩
  rw [hc]
  rfl

/-- C3 witness: serialized, the second of two identical bookings fails
its conflict check. -/
theorem C3_witness :
    (execSerial [] ⟨5, 1, 1, 480, 30⟩ ⟨7, 1, 1, 480, 30⟩).2.1 = false :=
  C3_theorem [] ⟨5, 1, 1, 480, 30⟩ ⟨7, 1, 1, 480, 30⟩ rfl
    (by decide) (by decide) (by decide)

/-- C6 counterexample: the admin booking path reads no clock at all —
with submission time 480 and start 480 (not strictly in the future) it
still answers ok and inserts the row, where the claim demands an
InvalidTime failure with no row created. -/
theorem C6_counterexample :
    adminNovoAgendamento ⟨[], [⟨1, 30, true⟩]⟩ 5 1 1 480 "" 1 =
      (ResAgendar.ok,
        ⟨[⟨1, 5, 1, 1, 480, 510, "", "confirmado"⟩], [⟨1, 30, true⟩]⟩) := by
  decide

/-- C6 (amended): on the patient path a start at or before the
submission time fails with the past-date rejection (InvalidTime) and
leaves the store unchanged; the admin path performs no such check and
can never produce that rejection. -/
theorem C6_theorem :
    (∀ (est : Estado) (now : Int) (p sid d : Nat) (ini : Int)
        (obs : String) (nid : Nat), ini ≤ now →
      agendar est now p sid d ini obs nid = (ResAgendar.dataPassada, est))
    ∧ (∀ (est : Estado) (p sid d : Nat) (ini : Int) (obs : String)
        (nid : Nat),
      (adminNovoAgendamento est p sid d ini obs nid).1 ≠
        ResAgendar.dataPassada) := by
  constructor
  · intro est now p sid d ini obs nid hle
    unfold agendar
    rw [if_pos hle]
  · intro est p sid d ini obs nid
    unfold adminNovoAgendamento
    split
    · simp
    · dsimp only
      split <;> simp

/-- C6 witness: a patient booking whose start equals the submission time
is rejected with no store change. -/
theorem C6_witness :
    agendar ⟨[], [⟨1, 30, true⟩]⟩ 480 5 1 1 480 "" 1 =
      (ResAgendar.dataPassada, ⟨[], [⟨1, 30, true⟩]⟩) :=
  C6_theorem.1 ⟨[], [⟨1, 30, true⟩]⟩ 480 5 1 1 480 "" 1 (le_refl 480)

/-- C7 counterexample: a booking that references an *inactive* service
succeeds and inserts the row — the route fetches the service with
`Servico.query.get`, never consulting its `ativo` flag (nor looking the
dentist up at all), where the claim demands an Inactive failure with no
row created. -/
theorem C7_counterexample :
    agendar ⟨[], [⟨1, 30, false⟩]⟩ 0 5 1 1 480 "" 1 =
      (ResAgendar.ok,
        ⟨[⟨1, 5, 1, 1, 480, 510, "", "pendente"⟩], [⟨1, 30, false⟩]⟩) := by
  decide

/-- C7 (amended): on both booking paths, a service id that does not
resolve fails with NotFound and creates no row; neither path checks the
practitioner's existence or activity, nor the service's active flag. -/
theorem C7_theorem :
    (∀ (est : Estado) (now : Int) (p sid d : Nat) (ini : Int)
        (obs : String) (nid : Nat), now < ini →
      est.servicos.find? (fun s => s.id == sid) = none →
      agendar est now p sid d ini obs nid =
        (ResAgendar.servicoNaoEncontrado, est))
    ∧ (∀ (est : Estado) (p sid d : Nat) (ini : Int) (obs : String)
        (nid : Nat),
      est.servicos.find? (fun s => s.id == sid) = none →
      adminNovoAgendamento est p sid d ini obs nid =
        (ResAgendar.servicoNaoEncontrado, est)) := by
  constructor
  · intro est now p sid d ini obs nid hfut hnone
    unfold agendar
    rw [if_neg (by omega), hnone]
  · intro est p sid d ini obs nid hnone
    unfold adminNovoAgendamento
    rw [hnone]

/-- C7 witness: both paths answer NotFound on an empty services table,
leaving the store unchanged. -/
theorem C7_witness :
    agendar ⟨[], []⟩ 0 5 1 1 480 "" 1 =
      (ResAgendar.servicoNaoEncontrado, ⟨[], []⟩) :=
  C7_theorem.1 ⟨[], []⟩ 0 5 1 1 480 "" 1 (by decide) (by decide)

/-- C8: cancel by a patient who does not own the appointment fails with
Forbidden and changes nothing; cancel of an already Cancelled or
Completed appointment fails with AlreadyTerminal and changes nothing;
otherwise cancel succeeds and sets the status to Cancelled — after
which a second cancel of the same appointment yields AlreadyTerminal
with no further change. -/
theorem C8_theorem (est : Estado) (i p : Nat) (ag : Agendamento)
    (hfind : est.agendamentos.find? (fun a => a.id == i) = some ag) :
    (ag.pacienteId ≠ p →
      cancelarAgendamento est i p = (ResCancelar.semPermissao, est))
    ∧ (ag.pacienteId = p →
      (ag.status = "cancelado" ∨ ag.status = "concluido") →
      cancelarAgendamento est i p = (ResCancelar.naoPodeCancelar, est))
    ∧ (ag.pacienteId = p → ag.status ≠ "cancelado" →
      ag.status ≠ "concluido" →
      (cancelarAgendamento est i p).1 = ResCancelar.ok
      ∧ ((cancelarAgendamento est i p).2).agendamentos.find?
          (fun a => a.id == i) = some { ag with status := "cancelado" }
      ∧ cancelarAgendamento (cancelarAgendamento est i p).2 i p =
          (ResCancelar.naoPodeCancelar, (cancelarAgendamento est i p).2)) := by
  refine ⟨?_, ?_, ?_⟩
  · intro hne
    unfold cancelarAgendamento
    rw [hfind]
    dsimp only
    rw [if_pos (by simp [bne_iff_ne, hne])]
  · intro hown hterm
    unfold cancelarAgendamento
    rw [hfind]
    dsimp only
    rw [if_neg (by simp [bne_iff_ne, hown]),
      if_pos (by rcases hterm with h | h <;> simp [h])]
  · intro hown h1 h2
    have hres : cancelarAgendamento est i p =
        (ResCancelar.ok,
          { est with agendamentos :=
              atualizaStatusLista est.agendamentos i "cancelado" }) := by
      unfold cancelarAgendamento
      rw [hfind]
      dsimp only
      rw [if_neg (by simp [bne_iff_ne, hown]), if_neg (by simp [h1, h2])]
    refine ⟨by rw [hres], ?_, ?_⟩
    · rw [hres]
      exact find?_atualiza _ _ _ _ hfind
    · rw [hres]
      unfold cancelarAgendamento
      dsimp only
      rw [find?_atualiza est.agendamentos i "cancelado" ag hfind]
      dsimp only
      rw [if_neg (by simp [bne_iff_ne, hown]), if_pos (by simp)]

/-- C8 witness: the owner's cancel of a pending appointment succeeds. -/
theorem C8_witness :
    (cancelarAgendamento
      ⟨[⟨1, 5, 1, 1, 480, 510, "", "pendente"⟩], []⟩ 1 5).1 =
      ResCancelar.ok :=
  ((C8_theorem ⟨[⟨1, 5, 1, 1, 480, 510, "", "pendente"⟩], []⟩ 1 5
      ⟨1, 5, 1, 1, 480, 510, "", "pendente"⟩ (by decide)).2.2 rfl
    (by decide) (by decide)).1

/-- C9 counterexample: the status route applied to an already-cancelled
appointment with requested status confirmado answers ok and overwrites
the status — where the claim demands an AlreadyTerminal failure with the
status unchanged.  (This is the re-activation that breaks C1's
invariant.) -/
theorem C9_counterexample :
    atualizarStatusAgendamento estTerminal 1 "confirmado" =
      (ResStatus.ok, ⟨[⟨1, 5, 1, 1, 480, 510, "", "confirmado"⟩], []⟩) := by
  decide

/-- C9 (amended): the status route has no terminal guard: for every
appointment — terminal or not — a requested status among confirmado,
cancelado, concluido succeeds and overwrites the stored status with the
requested value; a requested status outside that set is rejected as
InvalidStatus with the store unchanged. -/
theorem C9_theorem (est : Estado) (i : Nat) (ag : Agendamento)
    (ns : String)
    (hfind : est.agendamentos.find? (fun a => a.id == i) = some ag) :
    ((ns = "confirmado" ∨ ns = "cancelado" ∨ ns = "concluido") →
      (atualizarStatusAgendamento est i ns).1 = ResStatus.ok
      ∧ ((atualizarStatusAgendamento est i ns).2).agendamentos.find?
          (fun a => a.id == i) = some { ag with status := ns })
    ∧ (ns ≠ "confirmado" → ns ≠ "cancelado" → ns ≠ "concluido" →
      atualizarStatusAgendamento est i ns = (ResStatus.statusInvalido, est)) := by
  constructor
  · intro hv
    have hres : atualizarStatusAgendamento est i ns =
        (ResStatus.ok,
          { est with agendamentos :=
              atualizaStatusLista est.agendamentos i ns }) := by
      unfold atualizarStatusAgendamento
      rw [hfind]
      dsimp only
      rw [if_pos (by rcases hv with h | h | h <;> simp [h])]
    rw [hres]
    exact ⟨rfl, find?_atualiza _ _ _ _ hfind⟩
  · intro h1 h2 h3
    unfold atualizarStatusAgendamento
    rw [hfind]
    dsimp only
    rw [if_neg (by simp [h1, h2, h3])]

/-- C9 witness: confirming a pending appointment through the status
route succeeds. -/
theorem C9_witness :
    (atualizarStatusAgendamento
      ⟨[⟨1, 5, 1, 1, 480, 510, "", "pendente"⟩], []⟩ 1 "confirmado").1 =
      ResStatus.ok :=
  ((C9_theorem ⟨[⟨1, 5, 1, 1, 480, 510, "", "pendente"⟩], []⟩ 1
      ⟨1, 5, 1, 1, 480, 510, "", "pendente"⟩ "confirmado"
      (by decide)).1 (Or.inl rfl)).1

end DentalSystem
